import Mathlib

/-!
Verification of the figma-changes-tracker core (`tracker.py`).

The development shallowly embeds the node-extraction layer (the per-kind
regular patterns and node builders), the snapshot data model and its
serialization, and the snapshot-comparison engine.  Python floats are
modelled as exact rationals (`ℚ`); Python strings as `String`/`List Char`.
The regular patterns of the four node parsers all share one shape —
an anchored opening tag with a mandatory `id` attribute, a fixed sequence
of optional quoted attributes, a catch-all up to the tag close, and
(except for text nodes) the inner text up to the closing tag — and are
embedded as a deterministic matcher over character lists that mirrors the
greedy behaviour of the source patterns group by group.
-/

namespace FigmaChanges

/-- Characters of the regex class \s (matched by the patterns and stripped
from inner text by str.strip). -/
def isSpace (c : Char) : Bool :=
  c = ' ' || c = '\t' || c = '\n' || c = '\r' || c = '\x0b' || c = '\x0c'

/-- The character class [^"] of the quoted attribute values. -/
def notQuote (c : Char) : Bool := c != '"'

/-- The character class [^>] of the catch-all before the tag close. -/
def notGt (c : Char) : Bool := c != '>'

/-- The character class [^<] of the inner text group. -/
def notLt (c : Char) : Bool := c != '<'

/-- Match a literal character sequence at the head of the input, returning
the remaining input on success. -/
def matchLit : List Char → List Char → Option (List Char)
  | [], s => some s
  | _ :: _, [] => none
  | c :: cs, d :: ds => if c = d then matchLit cs ds else none

/-- Match \s+ : at least one whitespace character, taken greedily. -/
def matchSpaces : List Char → Option (List Char)
  | [] => none
  | c :: cs => if isSpace c then some (cs.dropWhile isSpace) else none

/-- The step ([^"]*)" : capture up to the next double quote, which must be
present and is consumed. -/
def captureQuoted (s : List Char) : Option (List Char × List Char) :=
  match s.dropWhile notQuote with
  | '"' :: s3 => some (s.takeWhile notQuote, s3)
  | _ => none

/-- One optional attribute group (?:\s+NAME="([^"]*)")? of the node
patterns: succeeds when whitespace, the attribute name and a quoted value
follow, returning the captured value and the remaining input. -/
def tryAttr (name : List Char) (s : List Char) : Option (List Char × List Char) :=
  (matchSpaces s).bind fun s1 =>
  (matchLit (name ++ ['=', '"']) s1).bind fun s2 =>
  captureQuoted s2

/-- The optional group either captures its value or leaves the input
untouched (group value None in the source). -/
def optAttr (name : List Char) (s : List Char) : Option (List Char) × List Char :=
  match tryAttr name s with
  | some (v, s1) => (some v, s1)
  | none => (none, s)

/-- The sequence of optional attribute groups of a node pattern, in the
pattern's fixed order. -/
def matchAttrs : List (List Char) → List Char → List (Option (List Char)) × List Char
  | [], s => ([], s)
  | a :: as, s =>
    let p := optAttr a s
    let q := matchAttrs as p.2
    (p.1 :: q.1, q.2)

/-- The step [^>]*> : skip to the close of the opening tag, which must be
present and is consumed. -/
def expectGt (s : List Char) : Option (List Char) :=
  match s.dropWhile notGt with
  | '>' :: r => some r
  | _ => none

/-- The capture groups of one matched element: the mandatory id, the
optional attribute groups in pattern order, and the inner text. -/
structure ElemMatch where
  id : List Char
  groups : List (Option (List Char))
  inner : List Char
deriving DecidableEq, Repr

/-- The shared shape of the shape-with-text, connector and sticky patterns,
anchored at the head of the input:
<TAG\s+id="([^"]+)" GROUPS [^>]*>([^<]*)</TAG>. -/
def matchElem (tag : List Char) (attrNames : List (List Char)) (s : List Char) :
    Option ElemMatch :=
  (matchLit ('<' :: tag) s).bind fun s1 =>
  (matchSpaces s1).bind fun s2 =>
  (matchLit ['i', 'd', '=', '"'] s2).bind fun s3 =>
  (captureQuoted s3).bind fun p =>
  if p.1 = [] then none else
  (expectGt (matchAttrs attrNames p.2).2).bind fun s5 =>
  (matchLit ('<' :: '/' :: (tag ++ ['>'])) (s5.dropWhile notLt)).bind fun _ =>
  some ⟨p.1, (matchAttrs attrNames p.2).1, s5.takeWhile notLt⟩

/-- The text pattern shape <TAG\s+id="([^"]+)" GROUPS [^>]*/?> with no
inner text group. -/
def matchElemSC (tag : List Char) (attrNames : List (List Char)) (s : List Char) :
    Option ElemMatch :=
  (matchLit ('<' :: tag) s).bind fun s1 =>
  (matchSpaces s1).bind fun s2 =>
  (matchLit ['i', 'd', '=', '"'] s2).bind fun s3 =>
  (captureQuoted s3).bind fun p =>
  if p.1 = [] then none else
  (expectGt (matchAttrs attrNames p.2).2).bind fun _ =>
  some ⟨p.1, (matchAttrs attrNames p.2).1, []⟩

/-- Render a list of optional attributes as markup text, omitting the
absent ones, each present one as NAME="VALUE" after one space. -/
def renderAttrs : List (List Char × Option (List Char)) → List Char
  | [] => []
  | (_, none) :: ps => renderAttrs ps
  | (a, some v) :: ps => ' ' :: (a ++ '=' :: '"' :: (v ++ '"' :: renderAttrs ps))

/-- Render a complete markup element with inner text and closing tag. -/
def renderElem (tag : List Char) (i : List Char)
    (ps : List (List Char × Option (List Char))) (inner : List Char) : List Char :=
  '<' :: (tag ++ ' ' :: 'i' :: 'd' :: '=' :: '"' ::
    (i ++ '"' :: (renderAttrs ps ++ '>' :: (inner ++ '<' :: '/' :: (tag ++ ['>'])))))

/-- Render a self-closing markup element (text nodes). -/
def renderElemSC (tag : List Char) (i : List Char)
    (ps : List (List Char × Option (List Char))) : List Char :=
  '<' :: (tag ++ ' ' :: 'i' :: 'd' :: '=' :: '"' :: (i ++ '"' :: (renderAttrs ps ++ ['/', '>'])))

/-- A usable attribute name: nonempty and not starting with whitespace. -/
def goodName : List Char → Bool
  | [] => false
  | c :: _ => !isSpace c

/-- A value admissible inside a quoted attribute ([^"]*). -/
def noQuote (v : List Char) : Bool := v.all notQuote

/-- Admissibility of an optional value. -/
def noQuoteO : Option (List Char) → Bool
  | none => true
  | some v => noQuote v

/-- Two literals disagreeing at a position common to both, so neither can
begin a match of the other whatever follows. -/
def litClash : List Char → List Char → Bool
  | [], _ => false
  | _ :: _, [] => false
  | c :: cs, d :: ds => if c = d then litClash cs ds else true

theorem matchLit_append (l t : List Char) : matchLit l (l ++ t) = some t := by
  induction l with
  | nil => rfl
  | cons c cs ih => simp [matchLit, ih]

theorem matchLit_clash {a b : List Char} (h : litClash a b = true) (t : List Char) :
    matchLit a (b ++ t) = none := by
  induction a generalizing b with
  | nil => simp [litClash] at h
  | cons c cs ih =>
    cases b with
    | nil => simp [litClash] at h
    | cons d ds =>
      by_cases hc : c = d
      · subst hc
        rw [litClash, if_pos rfl] at h
        simpa [matchLit] using ih h
      · simp [matchLit, hc]

theorem takeWhile_all_append {p : Char → Bool} {v : List Char} (h : v.all p = true)
    {c : Char} (hc : p c = false) (t : List Char) :
    (v ++ c :: t).takeWhile p = v := by
  induction v with
  | nil => simp [List.takeWhile_cons, hc]
  | cons d ds ih =>
    simp only [List.all_cons, Bool.and_eq_true] at h
    simp [List.takeWhile_cons, h.1, ih h.2]

theorem dropWhile_all_append {p : Char → Bool} {v : List Char} (h : v.all p = true)
    {c : Char} (hc : p c = false) (t : List Char) :
    (v ++ c :: t).dropWhile p = c :: t := by
  induction v with
  | nil => simp [List.dropWhile_cons, hc]
  | cons d ds ih =>
    simp only [List.all_cons, Bool.and_eq_true] at h
    simp [List.dropWhile_cons, h.1, ih h.2]

theorem dropWhile_isSpace_goodName {a : List Char} (h : goodName a = true) (t : List Char) :
    (a ++ t).dropWhile isSpace = a ++ t := by
  cases a with
  | nil => simp [goodName] at h
  | cons c cs =>
    simp only [goodName, Bool.not_eq_true'] at h
    simp [List.dropWhile_cons, h]

theorem captureQuoted_append {v : List Char} (hv : noQuote v = true) (t : List Char) :
    captureQuoted (v ++ '"' :: t) = some (v, t) := by
  rw [captureQuoted, dropWhile_all_append hv (by decide : notQuote '"' = false),
    takeWhile_all_append hv (by decide : notQuote '"' = false)]
  rfl

theorem tryAttr_render {a v : List Char} (t : List Char)
    (ha : goodName a = true) (hv : noQuote v = true) :
    tryAttr a (' ' :: (a ++ '=' :: '"' :: (v ++ '"' :: t))) = some (v, t) := by
  have h1 : matchSpaces (' ' :: (a ++ '=' :: '"' :: (v ++ '"' :: t))) =
      some ((a ++ '=' :: '"' :: (v ++ '"' :: t)).dropWhile isSpace) := rfl
  have h2 : a ++ '=' :: '"' :: (v ++ '"' :: t) = (a ++ ['=', '"']) ++ (v ++ '"' :: t) := by
    simp
  rw [tryAttr, h1, dropWhile_isSpace_goodName ha, Option.some_bind, h2, matchLit_append,
    Option.some_bind, captureQuoted_append hv]

theorem tryAttr_skip (a : List Char) (ps : List (List Char × Option (List Char)))
    (rest : List Char)
    (hg : ∀ p ∈ ps, goodName p.1 = true)
    (hc : ∀ p ∈ ps, litClash (a ++ ['=', '"']) (p.1 ++ ['=', '"']) = true)
    (hr : matchSpaces rest = none) :
    tryAttr a (renderAttrs ps ++ rest) = none := by
  induction ps with
  | nil => rw [renderAttrs, List.nil_append, tryAttr, hr, Option.none_bind]
  | cons p ps ih =>
    obtain ⟨b, ov⟩ := p
    cases ov with
    | none =>
      rw [renderAttrs]
      exact ih (fun q hq => hg q (List.mem_cons_of_mem _ hq))
        (fun q hq => hc q (List.mem_cons_of_mem _ hq))
    | some v =>
      have hb : goodName b = true := hg (b, some v) (List.mem_cons_self _ _)
      have hbc : litClash (a ++ ['=', '"']) (b ++ ['=', '"']) = true :=
        hc (b, some v) (List.mem_cons_self _ _)
      have h1 : renderAttrs ((b, some v) :: ps) ++ rest =
          ' ' :: (b ++ '=' :: '"' :: ((v ++ '"' :: renderAttrs ps) ++ rest)) := by
        simp [renderAttrs]
      have h2 : matchSpaces (' ' :: (b ++ '=' :: '"' :: ((v ++ '"' :: renderAttrs ps) ++ rest))) =
          some ((b ++ '=' :: '"' :: ((v ++ '"' :: renderAttrs ps) ++ rest)).dropWhile isSpace) :=
        rfl
      have h3 : b ++ '=' :: '"' :: ((v ++ '"' :: renderAttrs ps) ++ rest) =
          (b ++ ['=', '"']) ++ ((v ++ '"' :: renderAttrs ps) ++ rest) := by simp
      rw [h1, tryAttr, h2, dropWhile_isSpace_goodName hb, Option.some_bind, h3,
        matchLit_clash hbc, Option.none_bind]

theorem matchAttrs_render (ps : List (List Char × Option (List Char))) (rest : List Char)
    (hg : ∀ p ∈ ps, goodName p.1 = true)
    (hv : ∀ p ∈ ps, noQuoteO p.2 = true)
    (hp : ps.Pairwise (fun p q => litClash (p.1 ++ ['=', '"']) (q.1 ++ ['=', '"']) = true))
    (hr : matchSpaces rest = none) :
    matchAttrs (ps.map Prod.fst) (renderAttrs ps ++ rest) = (ps.map Prod.snd, rest) := by
  induction ps with
  | nil => simp [matchAttrs, renderAttrs]
  | cons p ps ih =>
    obtain ⟨a, ov⟩ := p
    rw [List.pairwise_cons] at hp
    have hg' : ∀ q ∈ ps, goodName q.1 = true :=
      fun q hq => hg q (List.mem_cons_of_mem _ hq)
    have hv' : ∀ q ∈ ps, noQuoteO q.2 = true :=
      fun q hq => hv q (List.mem_cons_of_mem _ hq)
    have ihs := ih hg' hv' hp.2
    cases ov with
    | some v =>
      have ha : goodName a = true := hg (a, some v) (List.mem_cons_self _ _)
      have hvv : noQuote v = true := hv (a, some v) (List.mem_cons_self _ _)
      have h1 : renderAttrs ((a, some v) :: ps) ++ rest =
          ' ' :: (a ++ '=' :: '"' :: (v ++ '"' :: (renderAttrs ps ++ rest))) := by
        simp [renderAttrs]
      have h2 : optAttr a (' ' :: (a ++ '=' :: '"' :: (v ++ '"' :: (renderAttrs ps ++ rest)))) =
          (some v, renderAttrs ps ++ rest) := by
        rw [optAttr, tryAttr_render (renderAttrs ps ++ rest) ha hvv]
      simp only [List.map_cons, matchAttrs, h1, h2, ihs]
    | none =>
      have hskip : tryAttr a (renderAttrs ps ++ rest) = none :=
        tryAttr_skip a ps rest hg' (fun q hq => hp.1 q hq) hr
      have h2 : optAttr a (renderAttrs ps ++ rest) = (none, renderAttrs ps ++ rest) := by
        rw [optAttr, hskip]
      simp only [List.map_cons, matchAttrs, renderAttrs, h2, ihs]

theorem matchElem_render (tag i inner : List Char)
    (ps : List (List Char × Option (List Char)))
    (hi : i ≠ []) (hiq : noQuote i = true)
    (hg : ∀ p ∈ ps, goodName p.1 = true)
    (hv : ∀ p ∈ ps, noQuoteO p.2 = true)
    (hp : ps.Pairwise (fun p q => litClash (p.1 ++ ['=', '"']) (q.1 ++ ['=', '"']) = true))
    (hin : inner.all notLt = true) :
    matchElem tag (ps.map Prod.fst) (renderElem tag i ps inner) =
      some ⟨i, ps.map Prod.snd, inner⟩ := by
  have h0 : renderElem tag i ps inner = ('<' :: tag) ++
      (' ' :: 'i' :: 'd' :: '=' :: '"' ::
        (i ++ '"' :: (renderAttrs ps ++ '>' :: (inner ++ '<' :: '/' :: (tag ++ ['>']))))) := rfl
  have h1 : matchSpaces (' ' :: 'i' :: 'd' :: '=' :: '"' ::
      (i ++ '"' :: (renderAttrs ps ++ '>' :: (inner ++ '<' :: '/' :: (tag ++ ['>']))))) =
      some ('i' :: 'd' :: '=' :: '"' ::
        (i ++ '"' :: (renderAttrs ps ++ '>' :: (inner ++ '<' :: '/' :: (tag ++ ['>']))))) := rfl
  have h2 : matchLit ['i', 'd', '=', '"'] ('i' :: 'd' :: '=' :: '"' ::
      (i ++ '"' :: (renderAttrs ps ++ '>' :: (inner ++ '<' :: '/' :: (tag ++ ['>']))))) =
      some (i ++ '"' :: (renderAttrs ps ++ '>' :: (inner ++ '<' :: '/' :: (tag ++ ['>'])))) :=
    matchLit_append ['i', 'd', '=', '"'] _
  have hrest : matchSpaces ('>' :: (inner ++ '<' :: '/' :: (tag ++ ['>']))) = none := rfl
  have hma := matchAttrs_render ps ('>' :: (inner ++ '<' :: '/' :: (tag ++ ['>']))) hg hv hp hrest
  have hcap := captureQuoted_append hiq
    (renderAttrs ps ++ '>' :: (inner ++ '<' :: '/' :: (tag ++ ['>'])))
  have hexp : expectGt ('>' :: (inner ++ '<' :: '/' :: (tag ++ ['>'])))
      = some (inner ++ '<' :: '/' :: (tag ++ ['>'])) := rfl
  have hdrop := dropWhile_all_append hin (by decide : notLt '<' = false)
    ('/' :: (tag ++ ['>']))
  have htake := takeWhile_all_append hin (by decide : notLt '<' = false)
    ('/' :: (tag ++ ['>']))
  have hcl : matchLit ('<' :: '/' :: (tag ++ ['>'])) ('<' :: '/' :: (tag ++ ['>'])) =
      some [] := by
    have h := matchLit_append ('<' :: '/' :: (tag ++ ['>'])) []
    simpa using h
  rw [matchElem, h0, matchLit_append]
  simp only [Option.some_bind, h1, h2, hcap, hma, hexp, hdrop, htake, hcl, if_neg hi]

theorem matchElemSC_render (tag i : List Char)
    (ps : List (List Char × Option (List Char)))
    (hi : i ≠ []) (hiq : noQuote i = true)
    (hg : ∀ p ∈ ps, goodName p.1 = true)
    (hv : ∀ p ∈ ps, noQuoteO p.2 = true)
    (hp : ps.Pairwise (fun p q => litClash (p.1 ++ ['=', '"']) (q.1 ++ ['=', '"']) = true)) :
    matchElemSC tag (ps.map Prod.fst) (renderElemSC tag i ps) =
      some ⟨i, ps.map Prod.snd, []⟩ := by
  have h0 : renderElemSC tag i ps = ('<' :: tag) ++
      (' ' :: 'i' :: 'd' :: '=' :: '"' :: (i ++ '"' :: (renderAttrs ps ++ ['/', '>']))) := rfl
  have h1 : matchSpaces (' ' :: 'i' :: 'd' :: '=' :: '"' ::
      (i ++ '"' :: (renderAttrs ps ++ ['/', '>']))) =
      some ('i' :: 'd' :: '=' :: '"' :: (i ++ '"' :: (renderAttrs ps ++ ['/', '>']))) := rfl
  have h2 : matchLit ['i', 'd', '=', '"'] ('i' :: 'd' :: '=' :: '"' ::
      (i ++ '"' :: (renderAttrs ps ++ ['/', '>']))) =
      some (i ++ '"' :: (renderAttrs ps ++ ['/', '>'])) :=
    matchLit_append ['i', 'd', '=', '"'] _
  have hrest : matchSpaces ['/', '>'] = none := rfl
  have hma := matchAttrs_render ps ['/', '>'] hg hv hp hrest
  have hcap := captureQuoted_append hiq (renderAttrs ps ++ ['/', '>'])
  have hexp : expectGt ['/', '>'] = some [] := rfl
  rw [matchElemSC, h0, matchLit_append]
  simp only [Option.some_bind, h1, h2, hcap, hma, hexp, if_neg hi]

/-! ## Node model and numeric parsing -/

/-- A node of a board (dataclass FigmaNode); Python floats are modelled as
exact rationals. -/
structure FigmaNode where
  id : String
  node_type : String
  name : String := ""
  x : ℚ := 0
  y : ℚ := 0
  width : ℚ := 0
  height : ℚ := 0
  text : String := ""
  color : String := ""
  author : String := ""
  connector_start : String := ""
  connector_end : String := ""
  connector_start_cap : String := ""
  connector_end_cap : String := ""
deriving DecidableEq, Repr

/-- Read an optional sign; true means negative. -/
def readSign : List Char → Bool × List Char
  | '+' :: s => (false, s)
  | '-' :: s => (true, s)
  | s => (false, s)

/-- Numeric value of a digit string. -/
def digitsNat (ds : List Char) : ℕ :=
  ds.foldl (fun acc c => acc * 10 + (c.toNat - 48)) 0

/-- Exponent part [eE][+-]?digits of a float literal; must end the string. -/
def readExp : List Char → Option ℤ
  | [] => some 0
  | c :: r =>
    if c = 'e' ∨ c = 'E' then
      let pe := readSign r
      let ed := pe.2.takeWhile Char.isDigit
      if ed = [] ∨ pe.2.dropWhile Char.isDigit ≠ [] then none
      else if pe.1 then some (-(digitsNat ed : ℤ)) else some (digitsNat ed : ℤ)
    else none

/-- Modelled from the builtin float(...) conversion applied to attribute
strings: an optionally signed decimal numeral with optional fractional
part and optional exponent parses to its exact rational value; everything
else is rejected (ValueError in the source).  The modelling ignores binary
rounding and leaves the special spellings inf/nan and embedded
underscores out of scope. -/
def pyFloat? (s : String) : Option ℚ :=
  let p := readSign s.toList
  let ip := p.2.takeWhile Char.isDigit
  let l2 := p.2.dropWhile Char.isDigit
  let fr : List Char × List Char :=
    match l2 with
    | '.' :: r => (r.takeWhile Char.isDigit, r.dropWhile Char.isDigit)
    | _ => ([], l2)
  if ip = [] ∧ fr.1 = [] then none
  else
    (readExp fr.2).map fun e =>
      let m : ℤ := digitsNat (ip ++ fr.1)
      let m : ℤ := if p.1 then -m else m
      let e2 : ℤ := e - fr.1.length
      if 0 ≤ e2 then mkRat (m * (10 : ℤ) ^ e2.toNat) 1
      else mkRat m ((10 : ℕ) ^ (-e2).toNat)

/-- NodeParser.safe_float: convert an optional attribute string to a
number, returning the default when the value is missing, empty, or fails
to parse. -/
def safe_float (value : Option String) (default : ℚ := 0) : ℚ :=
  match value with
  | none => default
  | some v => if v = "" then default else (pyFloat? v).getD default

/-- str.strip() on the captured inner text. -/
def pyStrip (l : List Char) : List Char :=
  ((l.dropWhile isSpace).reverse.dropWhile isSpace).reverse

/-- Optional-attribute group k of a match (group k+2 in the source's
numbering, where group 1 is the id). -/
def groupStr (m : ElemMatch) (k : ℕ) : Option String :=
  (m.groups.getD k none).map fun l => ⟨l⟩

/-! ## The four node parsers -/

/-- ShapeWithTextParser._pattern optional attributes, in pattern order. -/
def shapeAttrNames : List (List Char) :=
  ["x".toList, "y".toList, "width".toList, "height".toList, "name".toList]

/-- ShapeWithTextParser.create_node. -/
def ShapeWithTextParser.create_node (m : ElemMatch) : FigmaNode :=
  { id := ⟨m.id⟩
    node_type := "shape-with-text"
    x := safe_float (groupStr m 0)
    y := safe_float (groupStr m 1)
    width := safe_float (groupStr m 2)
    height := safe_float (groupStr m 3)
    name := (groupStr m 4).getD ""
    text := ⟨pyStrip m.inner⟩ }

/-- One match of the shape-with-text pattern at the head of the input,
turned into a node. -/
def ShapeWithTextParser.parse1 (s : List Char) : Option FigmaNode :=
  (matchElem "shape-with-text".toList shapeAttrNames s).map ShapeWithTextParser.create_node

/-- ConnectorParser._pattern optional attributes, in pattern order. -/
def connectorAttrNames : List (List Char) :=
  ["x".toList, "y".toList, "connectorStart".toList, "connectorStartCap".toList,
   "connectorEnd".toList, "connectorEndCap".toList]

/-- ConnectorParser.create_node. -/
def ConnectorParser.create_node (m : ElemMatch) : FigmaNode :=
  { id := ⟨m.id⟩
    node_type := "connector"
    x := safe_float (groupStr m 0)
    y := safe_float (groupStr m 1)
    connector_start := (groupStr m 2).getD ""
    connector_start_cap := (groupStr m 3).getD ""
    connector_end := (groupStr m 4).getD ""
    connector_end_cap := (groupStr m 5).getD ""
    text := ⟨pyStrip m.inner⟩ }

/-- One match of the connector pattern at the head of the input. -/
def ConnectorParser.parse1 (s : List Char) : Option FigmaNode :=
  (matchElem "connector".toList connectorAttrNames s).map ConnectorParser.create_node

/-- StickyParser._pattern optional attributes, in pattern order. -/
def stickyAttrNames : List (List Char) :=
  ["x".toList, "y".toList, "color".toList, "author".toList,
   "width".toList, "height".toList]

/-- StickyParser.create_node. -/
def StickyParser.create_node (m : ElemMatch) : FigmaNode :=
  { id := ⟨m.id⟩
    node_type := "sticky"
    x := safe_float (groupStr m 0)
    y := safe_float (groupStr m 1)
    color := (groupStr m 2).getD ""
    author := (groupStr m 3).getD ""
    width := safe_float (groupStr m 4)
    height := safe_float (groupStr m 5)
    text := ⟨pyStrip m.inner⟩ }

/-- One match of the sticky pattern at the head of the input. -/
def StickyParser.parse1 (s : List Char) : Option FigmaNode :=
  (matchElem "sticky".toList stickyAttrNames s).map StickyParser.create_node

/-- TextParser._pattern optional attributes, in pattern order. -/
def textAttrNames : List (List Char) :=
  ["name".toList, "x".toList, "y".toList, "width".toList, "height".toList]

/-- TextParser.create_node; the name doubles as the text. -/
def TextParser.create_node (m : ElemMatch) : FigmaNode :=
  { id := ⟨m.id⟩
    node_type := "text"
    name := (groupStr m 0).getD ""
    x := safe_float (groupStr m 1)
    y := safe_float (groupStr m 2)
    width := safe_float (groupStr m 3)
    height := safe_float (groupStr m 4)
    text := (groupStr m 0).getD "" }

/-- One match of the text pattern at the head of the input. -/
def TextParser.parse1 (s : List Char) : Option FigmaNode :=
  (matchElemSC "text".toList textAttrNames s).map TextParser.create_node

/-! ## Change records and the diff engine -/

/-- dataclass NodeChange. -/
structure NodeChange where
  change_type : String
  node_id : String
  node_type : String
  name : String := ""
  old_text : String := ""
  new_text : String := ""
  details : String := ""
deriving DecidableEq, Repr

/-- _truncate_text: append the 3-character ellipsis marker when the text
exceeds the maximum length. -/
def truncate_text (text : String) (max_length : ℕ) : String :=
  if text.length > max_length then ⟨text.toList.take max_length⟩ ++ "..." else text

/-- Display form of a number inside a change description; stands in for
the Python float repr, whose exact spelling no claim depends on. -/
def floatRepr (q : ℚ) : String := toString q

/-- FigmaTracker._detect_node_changes: the accumulated change
descriptions, in the source's fixed order. -/
def detect_node_changes (old_node new_node : FigmaNode) (ignore_positions : Bool) :
    List String :=
  (if old_node.text ≠ new_node.text then ["text changed"] else []) ++
  (if old_node.name ≠ new_node.name then
    ["name: \x27" ++ old_node.name ++ "\x27 -> \x27" ++ new_node.name ++ "\x27"] else []) ++
  (if old_node.node_type = "connector" then
    (if old_node.connector_start ≠ new_node.connector_start then
      ["start: " ++ old_node.connector_start ++ " -> " ++ new_node.connector_start]
     else []) ++
    (if old_node.connector_end ≠ new_node.connector_end then
      ["end: " ++ old_node.connector_end ++ " -> " ++ new_node.connector_end] else [])
   else []) ++
  (if ignore_positions then []
   else if old_node.x ≠ new_node.x ∨ old_node.y ≠ new_node.y then
    ["moved from (" ++ floatRepr old_node.x ++ ", " ++ floatRepr old_node.y ++
      ") to (" ++ floatRepr new_node.x ++ ", " ++ floatRepr new_node.y ++ ")"]
   else [])

/-- FigmaTracker._format_change_details. -/
def format_change_details (old_node new_node : FigmaNode) (changes : List String) :
    String :=
  let details_parts :=
    if old_node.text ≠ new_node.text then
      ["- \"" ++ truncate_text old_node.text 40 ++ "\"",
       "+ \"" ++ truncate_text new_node.text 40 ++ "\""]
    else [String.intercalate ", " changes]
  String.intercalate "\n    " details_parts

/-- Key set of the dict {n.id: n for n in nodes}; iteration order over the
derived Python sets is unspecified, so it is abstracted as the
deduplicated id list. -/
def idsOf (ns : List FigmaNode) : List String := (ns.map FigmaNode.id).dedup

/-- Value of the dict {n.id: n for n in nodes} at a key: the last node
carrying the id wins. -/
def lookupNode (ns : List FigmaNode) (i : String) : Option FigmaNode :=
  ns.reverse.find? fun n => n.id == i

/-- The loop body of _find_added_nodes for one added id. -/
def addedRecord? (new_nodes : List FigmaNode) (i : String) : Option NodeChange :=
  (lookupNode new_nodes i).map fun node =>
    { change_type := "added", node_id := i, node_type := node.node_type,
      name := node.name, new_text := node.text }

/-- FigmaTracker._find_added_nodes: one record per id present in the new
snapshot only. -/
def find_added_nodes (old_nodes new_nodes : List FigmaNode) : List NodeChange :=
  ((idsOf new_nodes).filter fun i => decide (i ∉ idsOf old_nodes)).filterMap
    (addedRecord? new_nodes)

/-- The loop body of _find_removed_nodes for one removed id. -/
def removedRecord? (old_nodes : List FigmaNode) (i : String) : Option NodeChange :=
  (lookupNode old_nodes i).map fun node =>
    { change_type := "removed", node_id := i, node_type := node.node_type,
      name := node.name, old_text := node.text }

/-- FigmaTracker._find_removed_nodes: one record per id present in the old
snapshot only. -/
def find_removed_nodes (old_nodes new_nodes : List FigmaNode) : List NodeChange :=
  ((idsOf old_nodes).filter fun i => decide (i ∉ idsOf new_nodes)).filterMap
    (removedRecord? old_nodes)

/-- The loop body of _find_modified_nodes for one common id: a record
exactly when the field comparison reports at least one change. -/
def modifiedRecord? (old_nodes new_nodes : List FigmaNode) (ignore_positions : Bool)
    (i : String) : Option NodeChange :=
  (lookupNode old_nodes i).bind fun old_node =>
  (lookupNode new_nodes i).bind fun new_node =>
  if detect_node_changes old_node new_node ignore_positions = [] then none
  else some { change_type := "modified", node_id := i,
              node_type := new_node.node_type, name := new_node.name,
              old_text := old_node.text, new_text := new_node.text,
              details := format_change_details old_node new_node
                (detect_node_changes old_node new_node ignore_positions) }

/-- FigmaTracker._find_modified_nodes. -/
def find_modified_nodes (old_nodes new_nodes : List FigmaNode)
    (ignore_positions : Bool) : List NodeChange :=
  ((idsOf old_nodes).filter fun i => decide (i ∈ idsOf new_nodes)).filterMap
    (modifiedRecord? old_nodes new_nodes ignore_positions)

/-- dataclass ChangeReport. -/
structure ChangeReport where
  board_name : String
  from_snapshot : String
  to_snapshot : String
  added : List NodeChange := []
  removed : List NodeChange := []
  modified : List NodeChange := []
deriving DecidableEq, Repr

/-- ChangeReport.has_changes. -/
def ChangeReport.has_changes (r : ChangeReport) : Bool :=
  !r.added.isEmpty || !r.removed.isEmpty || !r.modified.isEmpty

/-- The comparison core of FigmaTracker.compare_snapshots once both
snapshots are loaded: build the id-keyed maps and populate the report. -/
def diff_reports (board from_ts to_ts : String) (old_nodes new_nodes : List FigmaNode)
    (ignore_positions : Bool) : ChangeReport :=
  { board_name := board, from_snapshot := from_ts, to_snapshot := to_ts,
    added := find_added_nodes old_nodes new_nodes,
    removed := find_removed_nodes old_nodes new_nodes,
    modified := find_modified_nodes old_nodes new_nodes ignore_positions }

/-! ## Snapshots and their serialization -/

/-- dataclass FigmaSnapshot. -/
structure FigmaSnapshot where
  board_name : String
  file_key : String
  node_id : String
  timestamp : String
  section_name : String := ""
  section_id : String := ""
  nodes : List FigmaNode := []
  raw_content : String := ""
deriving DecidableEq, Repr

/-- A JSON-style value of a serialized node field. -/
inductive FieldVal where
  | s (v : String)
  | q (v : ℚ)
deriving DecidableEq, Repr

/-- Truthiness bool(v) of a field value: the filter of FigmaNode.to_dict
keeps exactly the truthy ones. -/
def FieldVal.truthy : FieldVal → Bool
  | .s v => decide (v ≠ "")
  | .q v => decide (v ≠ 0)

/-- asdict(self): all fields of a node, in dataclass order. -/
def FigmaNode.fields (n : FigmaNode) : List (String × FieldVal) :=
  [("id", .s n.id), ("node_type", .s n.node_type), ("name", .s n.name),
   ("x", .q n.x), ("y", .q n.y), ("width", .q n.width), ("height", .q n.height),
   ("text", .s n.text), ("color", .s n.color), ("author", .s n.author),
   ("connector_start", .s n.connector_start), ("connector_end", .s n.connector_end),
   ("connector_start_cap", .s n.connector_start_cap),
   ("connector_end_cap", .s n.connector_end_cap)]

/-- FigmaNode.to_dict: the fields whose value is truthy. -/
def FigmaNode.to_dict (n : FigmaNode) : List (String × FieldVal) :=
  n.fields.filter fun p => p.2.truthy

/-- The names of the node's fields, the only keyword arguments
FigmaNode(**n) accepts. -/
def nodeFieldNames : List String :=
  ["id", "node_type", "name", "x", "y", "width", "height", "text", "color",
   "author", "connector_start", "connector_end", "connector_start_cap",
   "connector_end_cap"]

/-- First value stored under a key of a serialized record. -/
def lookupField (d : List (String × FieldVal)) (k : String) : Option FieldVal :=
  (d.find? fun p => p.1 == k).map Prod.snd

/-- A string field of FigmaNode(**d): its dataclass default when absent;
a non-string value is modelled as failure. -/
def getFieldS (d : List (String × FieldVal)) (k : String) : Option String :=
  match lookupField d k with
  | none => some ""
  | some (.s v) => some v
  | some (.q _) => none

/-- A numeric field of FigmaNode(**d): its dataclass default when absent;
a non-numeric value is modelled as failure. -/
def getFieldQ (d : List (String × FieldVal)) (k : String) : Option ℚ :=
  match lookupField d k with
  | none => some 0
  | some (.q v) => some v
  | some (.s _) => none

/-- FigmaNode(**n) applied to a serialized record: fails (TypeError in the
source) when a key is not a field name or a required field (id,
node_type, which have no dataclass default) is absent. -/
def FigmaNode.from_dict (d : List (String × FieldVal)) : Option FigmaNode :=
  if ¬ d.all (fun p => nodeFieldNames.contains p.1) then none else
  match lookupField d "id", lookupField d "node_type" with
  | some (.s i), some (.s ty) =>
    (getFieldS d "name").bind fun name =>
    (getFieldQ d "x").bind fun x =>
    (getFieldQ d "y").bind fun y =>
    (getFieldQ d "width").bind fun width =>
    (getFieldQ d "height").bind fun height =>
    (getFieldS d "text").bind fun text =>
    (getFieldS d "color").bind fun color =>
    (getFieldS d "author").bind fun author =>
    (getFieldS d "connector_start").bind fun cs =>
    (getFieldS d "connector_end").bind fun ce =>
    (getFieldS d "connector_start_cap").bind fun csc =>
    (getFieldS d "connector_end_cap").bind fun cec =>
    some { id := i, node_type := ty, name := name, x := x, y := y, width := width,
           height := height, text := text, color := color, author := author,
           connector_start := cs, connector_end := ce,
           connector_start_cap := csc, connector_end_cap := cec }
  | _, _ => none

/-- The serialized snapshot record (a JSON object with these fixed keys),
with the nodes in their compact form. -/
structure SnapDict where
  board_name : String
  file_key : String
  node_id : String
  timestamp : String
  section_name : String
  section_id : String
  node_count : ℕ
  nodes : List (List (String × FieldVal))
  raw_content : String
deriving DecidableEq, Repr

/-- FigmaSnapshot.to_dict. -/
def FigmaSnapshot.to_dict (s : FigmaSnapshot) : SnapDict :=
  { board_name := s.board_name, file_key := s.file_key, node_id := s.node_id,
    timestamp := s.timestamp, section_name := s.section_name,
    section_id := s.section_id, node_count := s.nodes.length,
    nodes := s.nodes.map FigmaNode.to_dict, raw_content := s.raw_content }

/-- FigmaSnapshot.from_dict: rebuilds every node via FigmaNode(**n);
fails when a node record does (the source would raise there). -/
def FigmaSnapshot.from_dict (d : SnapDict) : Option FigmaSnapshot :=
  (d.nodes.mapM FigmaNode.from_dict).map fun nodes =>
    { board_name := d.board_name, file_key := d.file_key, node_id := d.node_id,
      timestamp := d.timestamp, section_name := d.section_name,
      section_id := d.section_id, nodes := nodes, raw_content := d.raw_content }

/-! ## Snapshot persistence and the comparison entry point

The file system interactions of FigmaTracker are embedded as explicit
state passing over a `Store` holding the board directory's snapshot files
and index file; `datetime.now()` is passed in as an explicit argument. -/

/-- The board identity fields the tracker reads from its configuration. -/
structure TrackerCfg where
  board_name : String
  file_key : String
  node_id : String
deriving DecidableEq, Repr

/-- One entry of the snapshot index. -/
structure IndexEntry where
  timestamp : String
  filename : String
  node_count : ℕ
  section_name : String
  created_at : String
deriving DecidableEq, Repr, Inhabited

/-- The content of the index file. -/
structure IndexData where
  board_name : String
  file_key : String
  node_id : String
  snapshots : List IndexEntry
  total_snapshots : ℕ
  last_updated : Option String
deriving DecidableEq, Repr

/-- The persistent state of one board's snapshot directory: the snapshot
files keyed by their timestamp (the filename stem) and the optional index
file. -/
structure Store where
  files : List (String × SnapDict)
  index : Option IndexData
deriving DecidableEq, Repr

/-- FigmaTracker._load_index: the stored index, or a fresh empty one. -/
def load_index (cfg : TrackerCfg) (st : Store) : IndexData :=
  match st.index with
  | some idx => idx
  | none =>
    { board_name := cfg.board_name, file_key := cfg.file_key,
      node_id := cfg.node_id, snapshots := [], total_snapshots := 0,
      last_updated := none }

/-- Writing a file: overwrite the entry with the same name, or create it. -/
def upsertFile (files : List (String × SnapDict)) (key : String) (content : SnapDict) :
    List (String × SnapDict) :=
  if files.any (fun p => p.1 == key) then
    files.map fun p => if p.1 == key then (key, content) else p
  else files ++ [(key, content)]

/-- FigmaTracker._update_index: append the new snapshot's entry and
refresh the summary fields. -/
def update_index (cfg : TrackerCfg) (st : Store) (snapshot : FigmaSnapshot)
    (now : String) : Store :=
  let index := load_index cfg st
  let snaps := index.snapshots ++
    [{ timestamp := snapshot.timestamp,
       filename := snapshot.timestamp ++ ".json",
       node_count := snapshot.nodes.length,
       section_name := snapshot.section_name,
       created_at := now }]
  let newIndex : IndexData :=
    { board_name := index.board_name, file_key := index.file_key,
      node_id := index.node_id, snapshots := snaps,
      total_snapshots := snaps.length, last_updated := some now }
  { st with index := some newIndex }

/-- FigmaTracker.save_snapshot: write the snapshot record under its
timestamp, then update the index. -/
def save_snapshot (cfg : TrackerCfg) (st : Store) (snapshot : FigmaSnapshot)
    (now : String) : Store :=
  update_index cfg
    { st with files := upsertFile st.files snapshot.timestamp snapshot.to_dict }
    snapshot now

/-- Lexicographic string comparison: the Python str ordering used on the
timestamp sort key. -/
def strLe : List Char → List Char → Bool
  | [], _ => true
  | _ :: _, [] => false
  | c :: cs, d :: ds => if c = d then strLe cs ds else decide (c < d)

/-- Insert an entry into a list already sorted newest-first, before the
first entry whose timestamp does not exceed its own. -/
def insertEntryDesc (e : IndexEntry) : List IndexEntry → List IndexEntry
  | [] => [e]
  | a :: l =>
    if strLe a.timestamp.toList e.timestamp.toList then e :: a :: l
    else a :: insertEntryDesc e l

/-- Stable sort of the index entries by timestamp, newest first: the
behaviour of the source's list.sort(key=timestamp, reverse=True). -/
def sortEntriesDesc : List IndexEntry → List IndexEntry
  | [] => []
  | a :: l => insertEntryDesc a (sortEntriesDesc l)

/-- FigmaTracker.list_snapshots: the index entries sorted by timestamp,
newest first. -/
def list_snapshots (cfg : TrackerCfg) (st : Store) : List IndexEntry :=
  sortEntriesDesc (load_index cfg st).snapshots

/-- FigmaTracker.load_snapshot for an explicit timestamp: absent file
means no snapshot; a malformed node record (where the source would raise)
is modelled as a failed load. -/
def load_snapshot (st : Store) (timestamp : String) : Option FigmaSnapshot :=
  ((st.files.find? fun p => p.1 == timestamp).map Prod.snd).bind FigmaSnapshot.from_dict

/-- FigmaTracker._resolve_comparison_timestamps. -/
def resolve_comparison_timestamps (cfg : TrackerCfg) (st : Store)
    (from_ts to_ts : Option String) : Option String × Option String :=
  let snapshots := list_snapshots cfg st
  if snapshots.length < 2 then (none, none)
  else
    (some (from_ts.getD (snapshots.getD 1 default).timestamp),
     some (to_ts.getD (snapshots.getD 0 default).timestamp))

/-- `X or "(none)"` on an optional string: Python treats both None and the
empty string as falsy. -/
def pyOrStr (v : Option String) (d : String) : String :=
  match v with
  | none => d
  | some t => if t = "" then d else t

/-- FigmaTracker._empty_change_report. -/
def empty_change_report (cfg : TrackerCfg) (from_s to_s : Option String) :
    ChangeReport :=
  { board_name := cfg.board_name,
    from_snapshot := pyOrStr from_s "(none)",
    to_snapshot := pyOrStr to_s "(none)" }

/-- FigmaTracker.compare_snapshots (ignore_positions defaults to true in
the source). -/
def compare_snapshots (cfg : TrackerCfg) (st : Store)
    (from_ts to_ts : Option String) (ignore_positions : Bool := true) : ChangeReport :=
  let r := resolve_comparison_timestamps cfg st from_ts to_ts
  match r.1, r.2 with
  | some f, some t =>
    match load_snapshot st f, load_snapshot st t with
    | some old_snapshot, some new_snapshot =>
      diff_reports cfg.board_name f t old_snapshot.nodes new_snapshot.nodes
        ignore_positions
    | _, _ => empty_change_report cfg (some f) (some t)
  | f?, t? => empty_change_report cfg f? t?

/-! ## Shared facts about the id-keyed maps -/

theorem lookupNode_id {ns : List FigmaNode} {i : String} {node : FigmaNode}
    (h : lookupNode ns i = some node) : node.id = i := by
  rw [lookupNode] at h
  have hp := List.find?_some h
  simpa using hp

theorem lookupNode_isSome_of_mem {ns : List FigmaNode} {i : String}
    (h : i ∈ idsOf ns) : ∃ node, lookupNode ns i = some node := by
  rw [idsOf, List.mem_dedup] at h
  obtain ⟨n, hn, rfl⟩ := List.mem_map.1 h
  have hs : (List.find? (fun x => x.id == n.id) ns.reverse).isSome = true :=
    List.find?_isSome.2 ⟨n, by simpa using hn, by simp⟩
  obtain ⟨node, hnode⟩ := Option.isSome_iff_exists.1 hs
  exact ⟨node, hnode⟩

theorem mem_idsOf_of_lookupNode {ns : List FigmaNode} {i : String} {node : FigmaNode}
    (h : lookupNode ns i = some node) : i ∈ idsOf ns := by
  rw [lookupNode] at h
  have hm := List.mem_of_find?_eq_some h
  have hid := List.find?_some h
  rw [idsOf, List.mem_dedup]
  exact List.mem_map.2 ⟨node, by simpa using hm, by simpa using hid⟩

theorem idsOf_nodup (ns : List FigmaNode) : (idsOf ns).Nodup :=
  List.nodup_dedup _

/-! ## Claim theorems -/

/-- Comparing a node with itself reports no changes. -/
theorem detect_node_changes_self (n : FigmaNode) (ip : Bool) :
    detect_node_changes n n ip = [] := by
  cases ip <;> simp [detect_node_changes]

/-- A modified record names the common id it was produced for. -/
theorem modifiedRecord?_node_id {old_nodes new_nodes : List FigmaNode} {ip : Bool}
    {i : String} {c : NodeChange}
    (h : modifiedRecord? old_nodes new_nodes ip i = some c) : c.node_id = i := by
  rw [modifiedRecord?] at h
  cases h1 : lookupNode old_nodes i with
  | none => rw [h1] at h; exact Option.noConfusion h
  | some o =>
    rw [h1, Option.some_bind] at h
    cases h2 : lookupNode new_nodes i with
    | none => rw [h2] at h; exact Option.noConfusion h
    | some n =>
      rw [h2, Option.some_bind] at h
      by_cases hch : detect_node_changes o n ip = []
      · rw [if_pos hch] at h
        exact Option.noConfusion h
      · rw [if_neg hch] at h
        injection h with h
        subst h
        rfl

/-- C7 (confirmed): the truncation helper is pure; text of length at most
the maximum (including the exact-length boundary) is returned unchanged;
longer text becomes its first max_length characters followed by the fixed
3-character marker; the spec's two boundary examples hold. -/
theorem c7_truncation_boundary :
    (∀ (text : String) (max_length : ℕ),
      (text.length ≤ max_length → truncate_text text max_length = text) ∧
      (max_length < text.length →
        truncate_text text max_length = String.mk (text.toList.take max_length) ++ "...")) ∧
    ("...".length = 3) ∧
    truncate_text "1234567890" 10 = "1234567890" ∧
    truncate_text "12345678901" 10 = "1234567890..." := by
  refine ⟨fun text max_length => ⟨fun h => ?_, fun h => ?_⟩, by decide, by decide, by decide⟩
  · rw [truncate_text, if_neg (by omega)]
  · rw [truncate_text, if_pos h]

/-- Witness for C7 at concrete inputs. -/
theorem c7_truncation_boundary_witness :
    truncate_text "abc" 5 = "abc" ∧
    truncate_text "abcdefgh" 5 = String.mk ("abcdefgh".toList.take 5) ++ "..." :=
  ⟨(c7_truncation_boundary.1 "abc" 5).1 (by decide),
   (c7_truncation_boundary.1 "abcdefgh" 5).2 (by decide)⟩

/-- C6 (confirmed): safe_float returns the caller's default, without
failing, on missing, empty, or unparsable values, and the parsed number
on a well-formed numeral; hence a sticky element with a non-numeric x
attribute parses with x = 0. -/
theorem c6_default_on_malformed :
    (∀ d : ℚ, safe_float none d = d) ∧
    (∀ d : ℚ, safe_float (some "") d = d) ∧
    (∀ (s : String) (d : ℚ), pyFloat? s = none → safe_float (some s) d = d) ∧
    (∀ (s : String) (d q : ℚ), pyFloat? s = some q → safe_float (some s) d = q) ∧
    (StickyParser.parse1 "<sticky id=\"s1\" x=\"abc\">hi</sticky>".toList).map
      FigmaNode.x = some 0 := by
  refine ⟨fun d => rfl, fun d => rfl, fun s d h => ?_, fun s d q h => ?_, by decide⟩
  · by_cases hs : s = ""
    · subst hs; rfl
    · simp only [safe_float]
      rw [if_neg hs, h]
      rfl
  · by_cases hs : s = ""
    · subst hs
      rw [show pyFloat? "" = (none : Option ℚ) from rfl] at h
      cases h
    · simp only [safe_float]
      rw [if_neg hs, h]
      rfl

/-- Witness for C6 at concrete inputs. -/
theorem c6_default_on_malformed_witness :
    safe_float (some "bogus") 7 = 7 ∧ safe_float (some "100") 7 = mkRat 100 1 :=
  ⟨c6_default_on_malformed.2.2.1 "bogus" 7 (by decide),
   c6_default_on_malformed.2.2.2.1 "100" 7 (mkRat 100 1) (by decide)⟩

/-- C9 (confirmed): diffing two identical node collections yields empty
added, removed and modified sequences, so has_changes is false
(ignore_positions at its source default true). -/
theorem c9_noop_diff (board f t : String) (ns : List FigmaNode) :
    diff_reports board f t ns ns true =
      { board_name := board, from_snapshot := f, to_snapshot := t } ∧
    (diff_reports board f t ns ns true).has_changes = false := by
  have ha : find_added_nodes ns ns = [] := by
    rw [find_added_nodes, List.filter_eq_nil_iff.2 (fun a ha => by simp [ha])]
    rfl
  have hr : find_removed_nodes ns ns = [] := by
    rw [find_removed_nodes, List.filter_eq_nil_iff.2 (fun a ha => by simp [ha])]
    rfl
  have hm : find_modified_nodes ns ns true = [] := by
    rw [find_modified_nodes]
    refine List.filterMap_eq_nil_iff.2 fun i _ => ?_
    rw [modifiedRecord?]
    cases h : lookupNode ns i
    · rfl
    · simp [detect_node_changes_self]
  constructor
  · rw [diff_reports, ha, hr, hm]
  · rw [diff_reports, ha, hr, hm]
    rfl

/-- C10 (confirmed): the field comparison looks only at text, name, the
connector endpoints, and (when not ignored) the position; two versions of
an entity whose differences are confined to width, height, color, author,
or the connector caps produce no change description and no modified
record, whatever the ignore_positions flag. -/
theorem c10_uncompared_fields (o n : FigmaNode) (ip : Bool)
    (hid : o.id = n.id) (hty : o.node_type = n.node_type)
    (hname : o.name = n.name) (htext : o.text = n.text)
    (hx : o.x = n.x) (hy : o.y = n.y)
    (hcs : o.connector_start = n.connector_start)
    (hce : o.connector_end = n.connector_end) :
    detect_node_changes o n ip = [] ∧
    ∀ (old_nodes new_nodes : List FigmaNode) (i : String),
      lookupNode old_nodes i = some o → lookupNode new_nodes i = some n →
      ∀ c ∈ find_modified_nodes old_nodes new_nodes ip, c.node_id ≠ i := by
  have hdet : detect_node_changes o n ip = [] := by
    cases ip <;> simp [detect_node_changes, htext, hname, hcs, hce, hx, hy]
  refine ⟨hdet, fun old_nodes new_nodes i ho hn c hc heq => ?_⟩
  rw [find_modified_nodes] at hc
  obtain ⟨j, hj, hfj⟩ := List.mem_filterMap.1 hc
  have hcj : c.node_id = j := modifiedRecord?_node_id hfj
  rw [heq] at hcj
  rw [← hcj] at hfj
  rw [modifiedRecord?, ho, Option.some_bind, hn, Option.some_bind, if_pos hdet] at hfj
  exact Option.noConfusion hfj

/-- Each change record reported by the modified pass carries the id of the
common entity it describes; counting the records that name a given key
therefore reduces to whether the per-id pass produced one for the key. -/
theorem filterMap_filter_key_length (L : List String) (f : String → Option NodeChange)
    (key : String) (hf : ∀ i c, f i = some c → c.node_id = i) (hnd : L.Nodup) :
    ((L.filterMap f).filter fun c => c.node_id == key).length =
      if key ∈ L then ((f key).map fun _ => 1).getD 0 else 0 := by
  induction L with
  | nil => simp
  | cons a L ih =>
    rw [List.nodup_cons] at hnd
    have ihs := ih hnd.2
    rw [List.filterMap_cons]
    cases hfa : f a with
    | none =>
      by_cases hk : key = a
      · subst hk
        rw [ihs, if_neg hnd.1, if_pos (List.mem_cons_self _ _), hfa]
        rfl
      · rw [ihs]
        by_cases hkL : key ∈ L
        · rw [if_pos hkL, if_pos (List.mem_cons_of_mem _ hkL)]
        · rw [if_neg hkL, if_neg (by simp [hk, hkL])]
    | some c =>
      have hca : c.node_id = a := hf a c hfa
      rw [List.filter_cons]
      by_cases hk : key = a
      · subst hk
        rw [if_pos (by simp [hca]), List.length_cons, ihs, if_neg hnd.1,
          if_pos (List.mem_cons_self _ _), hfa]
        rfl
      · have hcond : ¬((c.node_id == key) = true) := by
          simp only [hca, beq_iff_eq]
          exact fun h => hk h.symm
        rw [if_neg hcond, ihs]
        by_cases hkL : key ∈ L
        · rw [if_pos hkL, if_pos (List.mem_cons_of_mem _ hkL)]
        · rw [if_neg hkL, if_neg (by simp [hk, hkL])]

/-- C3 (confirmed): for two versions of an entity identical except in x
and/or y (which differ), the diff with ignore_positions true (the source
default) reports no modified record for the entity, and with
ignore_positions false exactly one. -/
theorem c3_position_ignore_toggle (o n : FigmaNode)
    (hid : o.id = n.id) (hty : o.node_type = n.node_type)
    (hname : o.name = n.name) (htext : o.text = n.text)
    (hw : o.width = n.width) (hh : o.height = n.height)
    (hcolor : o.color = n.color) (hauthor : o.author = n.author)
    (hcs : o.connector_start = n.connector_start)
    (hce : o.connector_end = n.connector_end)
    (hcsc : o.connector_start_cap = n.connector_start_cap)
    (hcec : o.connector_end_cap = n.connector_end_cap)
    (hpos : o.x ≠ n.x ∨ o.y ≠ n.y)
    (old_nodes new_nodes : List FigmaNode) (i : String)
    (ho : lookupNode old_nodes i = some o) (hn : lookupNode new_nodes i = some n) :
    ((find_modified_nodes old_nodes new_nodes true).filter
      fun c => c.node_id == i).length = 0 ∧
    ((find_modified_nodes old_nodes new_nodes false).filter
      fun c => c.node_id == i).length = 1 := by
  have hmo : i ∈ idsOf old_nodes := mem_idsOf_of_lookupNode ho
  have hmn : i ∈ idsOf new_nodes := mem_idsOf_of_lookupNode hn
  have hnd : ((idsOf old_nodes).filter fun j => decide (j ∈ idsOf new_nodes)).Nodup :=
    (idsOf_nodup old_nodes).filter _
  have hmem : i ∈ (idsOf old_nodes).filter fun j => decide (j ∈ idsOf new_nodes) :=
    List.mem_filter.2 ⟨hmo, by simpa using hmn⟩
  constructor
  · have hdet : detect_node_changes o n true = [] := by
      simp [detect_node_changes, htext, hname, hcs, hce]
    rw [find_modified_nodes,
      filterMap_filter_key_length _ _ _ (fun j c h => modifiedRecord?_node_id h) hnd,
      if_pos hmem, modifiedRecord?, ho, Option.some_bind, hn, Option.some_bind,
      if_pos hdet]
    rfl
  · have hdet : detect_node_changes o n false ≠ [] := by
      simp [detect_node_changes, htext, hname, hcs, hce, hpos]
    rw [find_modified_nodes,
      filterMap_filter_key_length _ _ _ (fun j c h => modifiedRecord?_node_id h) hnd,
      if_pos hmem, modifiedRecord?, ho, Option.some_bind, hn, Option.some_bind,
      if_neg hdet]
    rfl

/-- Witness for C3 at a concrete pair of singleton snapshots. -/
theorem c3_position_ignore_toggle_witness :
    ((find_modified_nodes [{ id := "n1", node_type := "text", text := "Same" }]
        [{ id := "n1", node_type := "text", text := "Same", x := 100, y := 100 }]
        true).filter fun c => c.node_id == "n1").length = 0 ∧
    ((find_modified_nodes [{ id := "n1", node_type := "text", text := "Same" }]
        [{ id := "n1", node_type := "text", text := "Same", x := 100, y := 100 }]
        false).filter fun c => c.node_id == "n1").length = 1 :=
  c3_position_ignore_toggle
    { id := "n1", node_type := "text", text := "Same" }
    { id := "n1", node_type := "text", text := "Same", x := 100, y := 100 }
    rfl rfl rfl rfl rfl rfl rfl rfl rfl rfl rfl rfl
    (by decide) _ _ "n1" (by decide) (by decide)

/-- An added record names the id it was produced for. -/
theorem addedRecord?_node_id {new_nodes : List FigmaNode} {i : String} {c : NodeChange}
    (h : addedRecord? new_nodes i = some c) : c.node_id = i := by
  rw [addedRecord?] at h
  cases h1 : lookupNode new_nodes i <;> rw [h1] at h
  · exact Option.noConfusion h
  · injection h with h
    subst h
    rfl

/-- A removed record names the id it was produced for. -/
theorem removedRecord?_node_id {old_nodes : List FigmaNode} {i : String} {c : NodeChange}
    (h : removedRecord? old_nodes i = some c) : c.node_id = i := by
  rw [removedRecord?] at h
  cases h1 : lookupNode old_nodes i <;> rw [h1] at h
  · exact Option.noConfusion h
  · injection h with h
    subst h
    rfl

/-- The id set of the added sequence is exactly new minus old. -/
theorem mem_added_ids (old_nodes new_nodes : List FigmaNode) (i : String) :
    i ∈ (find_added_nodes old_nodes new_nodes).map NodeChange.node_id ↔
      i ∈ idsOf new_nodes ∧ i ∉ idsOf old_nodes := by
  rw [List.mem_map]
  constructor
  · rintro ⟨c, hc, rfl⟩
    rw [find_added_nodes] at hc
    obtain ⟨j, hj, hfj⟩ := List.mem_filterMap.1 hc
    rw [addedRecord?_node_id hfj]
    have hj' := List.mem_filter.1 hj
    exact ⟨hj'.1, by simpa using hj'.2⟩
  · rintro ⟨hn, ho⟩
    obtain ⟨node, hnode⟩ := lookupNode_isSome_of_mem hn
    refine ⟨{ change_type := "added", node_id := i, node_type := node.node_type,
              name := node.name, new_text := node.text }, ?_, rfl⟩
    rw [find_added_nodes]
    refine List.mem_filterMap.2 ⟨i, List.mem_filter.2 ⟨hn, by simpa using ho⟩, ?_⟩
    rw [addedRecord?, hnode]
    rfl

/-- The id set of the removed sequence is exactly old minus new. -/
theorem mem_removed_ids (old_nodes new_nodes : List FigmaNode) (i : String) :
    i ∈ (find_removed_nodes old_nodes new_nodes).map NodeChange.node_id ↔
      i ∈ idsOf old_nodes ∧ i ∉ idsOf new_nodes := by
  rw [List.mem_map]
  constructor
  · rintro ⟨c, hc, rfl⟩
    rw [find_removed_nodes] at hc
    obtain ⟨j, hj, hfj⟩ := List.mem_filterMap.1 hc
    rw [removedRecord?_node_id hfj]
    have hj' := List.mem_filter.1 hj
    exact ⟨hj'.1, by simpa using hj'.2⟩
  · rintro ⟨ho, hn⟩
    obtain ⟨node, hnode⟩ := lookupNode_isSome_of_mem ho
    refine ⟨{ change_type := "removed", node_id := i, node_type := node.node_type,
              name := node.name, old_text := node.text }, ?_, rfl⟩
    rw [find_removed_nodes]
    refine List.mem_filterMap.2 ⟨i, List.mem_filter.2 ⟨ho, by simpa using hn⟩, ?_⟩
    rw [removedRecord?, hnode]
    rfl

/-- The id set of the modified sequence: common ids whose field
comparison reports a change. -/
theorem mem_modified_ids (old_nodes new_nodes : List FigmaNode) (ip : Bool) (i : String) :
    i ∈ (find_modified_nodes old_nodes new_nodes ip).map NodeChange.node_id ↔
      i ∈ idsOf old_nodes ∧ i ∈ idsOf new_nodes ∧
        modifiedRecord? old_nodes new_nodes ip i ≠ none := by
  rw [List.mem_map]
  constructor
  · rintro ⟨c, hc, rfl⟩
    rw [find_modified_nodes] at hc
    obtain ⟨j, hj, hfj⟩ := List.mem_filterMap.1 hc
    rw [modifiedRecord?_node_id hfj]
    have hj' := List.mem_filter.1 hj
    refine ⟨hj'.1, by simpa using hj'.2, ?_⟩
    rw [hfj]
    exact Option.noConfusion
  · rintro ⟨ho, hn, hne⟩
    obtain ⟨c, hc⟩ := Option.ne_none_iff_exists'.1 hne
    refine ⟨c, ?_, modifiedRecord?_node_id hc⟩
    rw [find_modified_nodes]
    exact List.mem_filterMap.2 ⟨i, List.mem_filter.2 ⟨ho, by simpa using hn⟩, hc⟩

/-- C2 (confirmed): each entity id in the union of the two snapshots' id
sets is classified into exactly one of added, removed, modified, and
unchanged (present in both with no reported change), and the added,
removed and modified id sets are pairwise disjoint. -/
theorem c2_diff_completeness (old_nodes new_nodes : List FigmaNode) (ip : Bool)
    (i : String) (hmem : i ∈ idsOf old_nodes ∨ i ∈ idsOf new_nodes) :
    (i ∈ (find_added_nodes old_nodes new_nodes).map NodeChange.node_id ∨
     i ∈ (find_removed_nodes old_nodes new_nodes).map NodeChange.node_id ∨
     i ∈ (find_modified_nodes old_nodes new_nodes ip).map NodeChange.node_id ∨
     (i ∈ idsOf old_nodes ∧ i ∈ idsOf new_nodes ∧
       modifiedRecord? old_nodes new_nodes ip i = none)) ∧
    ¬(i ∈ (find_added_nodes old_nodes new_nodes).map NodeChange.node_id ∧
      i ∈ (find_removed_nodes old_nodes new_nodes).map NodeChange.node_id) ∧
    ¬(i ∈ (find_added_nodes old_nodes new_nodes).map NodeChange.node_id ∧
      i ∈ (find_modified_nodes old_nodes new_nodes ip).map NodeChange.node_id) ∧
    ¬(i ∈ (find_removed_nodes old_nodes new_nodes).map NodeChange.node_id ∧
      i ∈ (find_modified_nodes old_nodes new_nodes ip).map NodeChange.node_id) ∧
    ¬(i ∈ (find_added_nodes old_nodes new_nodes).map NodeChange.node_id ∧
      (i ∈ idsOf old_nodes ∧ i ∈ idsOf new_nodes ∧
        modifiedRecord? old_nodes new_nodes ip i = none)) ∧
    ¬(i ∈ (find_removed_nodes old_nodes new_nodes).map NodeChange.node_id ∧
      (i ∈ idsOf old_nodes ∧ i ∈ idsOf new_nodes ∧
        modifiedRecord? old_nodes new_nodes ip i = none)) ∧
    ¬(i ∈ (find_modified_nodes old_nodes new_nodes ip).map NodeChange.node_id ∧
      (i ∈ idsOf old_nodes ∧ i ∈ idsOf new_nodes ∧
        modifiedRecord? old_nodes new_nodes ip i = none)) := by
  rw [mem_added_ids, mem_removed_ids, mem_modified_ids]
  by_cases ho : i ∈ idsOf old_nodes <;>
    by_cases hn : i ∈ idsOf new_nodes <;>
      by_cases hr : modifiedRecord? old_nodes new_nodes ip i = none <;>
        tauto

/-- Witness for C2 on the spec's mixed-change scenario. -/
theorem c2_diff_completeness_witness :
    "n2" ∈ (find_removed_nodes
        [{ id := "n1", node_type := "text", text := "Keep" },
         { id := "n2", node_type := "sticky", text := "Remove me" }]
        [{ id := "n1", node_type := "text", text := "Keep" },
         { id := "n3", node_type := "sticky", text := "New note" }]).map
      NodeChange.node_id ∨
    "n2" ∈ (find_added_nodes
        [{ id := "n1", node_type := "text", text := "Keep" },
         { id := "n2", node_type := "sticky", text := "Remove me" }]
        [{ id := "n1", node_type := "text", text := "Keep" },
         { id := "n3", node_type := "sticky", text := "New note" }]).map
      NodeChange.node_id := by
  have h := c2_diff_completeness
    [{ id := "n1", node_type := "text", text := "Keep" },
     { id := "n2", node_type := "sticky", text := "Remove me" }]
    [{ id := "n1", node_type := "text", text := "Keep" },
     { id := "n3", node_type := "sticky", text := "New note" }]
    true "n2" (Or.inl (by decide))
  rcases h.1 with ha | hr | hm | hu
  · exact absurd ((mem_added_ids _ _ _).1 ha).1 (by decide)
  · exact Or.inl hr
  · exact absurd ((mem_modified_ids _ _ _ _).1 hm).2.1 (by decide)
  · exact absurd hu.2.1 (by decide)

/-- Unfolding of a field lookup over a cons cell. -/
theorem lookupField_cons (p : String × FieldVal) (l : List (String × FieldVal))
    (k : String) :
    lookupField (p :: l) k = if (p.1 == k) = true then some p.2 else lookupField l k := by
  rw [lookupField, lookupField]
  cases hpk : (p.1 == k) <;> simp [List.find?_cons, hpk]

/-- A key absent from a record looks up to nothing. -/
theorem lookupField_eq_none (l : List (String × FieldVal)) (k : String)
    (h : k ∉ l.map Prod.fst) : lookupField l k = none := by
  rw [lookupField]
  cases hf : l.find? (fun p => p.1 == k) with
  | none => rfl
  | some q =>
    refine absurd (List.mem_map.2 ⟨q, List.mem_of_find?_eq_some hf, ?_⟩) h
    simpa using List.find?_some hf

/-- Looking a key up in the compact (truthy-filtered) record: the stored
value survives exactly when it is truthy, provided the keys are distinct. -/
theorem lookupField_filter (l : List (String × FieldVal)) (k : String)
    (hnd : (l.map Prod.fst).Nodup) :
    lookupField (l.filter fun p => p.2.truthy) k =
      match lookupField l k with
      | some v => if v.truthy = true then some v else none
      | none => none := by
  induction l with
  | nil => rfl
  | cons p l ih =>
    rw [List.map_cons, List.nodup_cons] at hnd
    have ihs := ih hnd.2
    by_cases hk : (p.1 == k) = true
    · have hkeq : p.1 = k := by simpa using hk
      by_cases ht : p.2.truthy = true
      · rw [List.filter_cons, if_pos ht, lookupField_cons, if_pos hk,
          lookupField_cons, if_pos hk]
        simp [ht]
      · have hnone : lookupField l k = none := lookupField_eq_none l k (hkeq ▸ hnd.1)
        rw [List.filter_cons, if_neg ht, ihs, hnone, lookupField_cons, if_pos hk]
        simp [ht]
    · rw [List.filter_cons]
      by_cases ht : p.2.truthy = true
      · rw [if_pos ht, lookupField_cons, if_neg hk, lookupField_cons, if_neg hk, ihs]
      · rw [if_neg ht, ihs, lookupField_cons, if_neg hk]

/-- A present string field of the compact record deserializes to its
stored value; an omitted one (empty string) to the dataclass default. -/
theorem getFieldS_to_dict (n : FigmaNode) (k : String) (v : String)
    (hk : lookupField n.fields k = some (.s v)) : getFieldS n.to_dict k = some v := by
  have hnd : (n.fields.map Prod.fst).Nodup := by
    rw [show n.fields.map Prod.fst = nodeFieldNames from rfl]
    decide
  rw [getFieldS, FigmaNode.to_dict, lookupField_filter _ _ hnd, hk]
  by_cases hv : (FieldVal.s v).truthy = true
  · simp [hv]
  · have hempty : v = "" := by simpa [FieldVal.truthy] using hv
    subst hempty
    rfl

/-- A present numeric field of the compact record deserializes to its
stored value; an omitted one (zero) to the dataclass default. -/
theorem getFieldQ_to_dict (n : FigmaNode) (k : String) (v : ℚ)
    (hk : lookupField n.fields k = some (.q v)) : getFieldQ n.to_dict k = some v := by
  have hnd : (n.fields.map Prod.fst).Nodup := by
    rw [show n.fields.map Prod.fst = nodeFieldNames from rfl]
    decide
  rw [getFieldQ, FigmaNode.to_dict, lookupField_filter _ _ hnd, hk]
  by_cases hv : (FieldVal.q v).truthy = true
  · simp [hv]
  · have hzero : v = 0 := by simpa [FieldVal.truthy] using hv
    subst hzero
    rfl

/-- A truthy field survives serialization unchanged. -/
theorem lookupField_to_dict (n : FigmaNode) (k : String) (v : FieldVal)
    (hk : lookupField n.fields k = some v) (hv : v.truthy = true) :
    lookupField n.to_dict k = some v := by
  have hnd : (n.fields.map Prod.fst).Nodup := by
    rw [show n.fields.map Prod.fst = nodeFieldNames from rfl]
    decide
  rw [FigmaNode.to_dict, lookupField_filter _ _ hnd, hk]
  simp [hv]

/-- A node with its required fields populated survives the compact
serialization round trip. -/
theorem node_round_trip (n : FigmaNode) (hid : n.id ≠ "") (hty : n.node_type ≠ "") :
    FigmaNode.from_dict n.to_dict = some n := by
  have hall : (n.to_dict.all fun p => nodeFieldNames.contains p.1) = true := by
    refine List.all_eq_true.2 fun p hp => ?_
    have hpf : p ∈ n.fields := List.mem_of_mem_filter hp
    have hfields : (n.fields.all fun p => nodeFieldNames.contains p.1) = true := rfl
    exact List.all_eq_true.1 hfields p hpf
  rw [FigmaNode.from_dict, if_neg (not_not_intro hall)]
  rw [lookupField_to_dict n "id" (.s n.id) rfl (by simpa [FieldVal.truthy] using hid),
    lookupField_to_dict n "node_type" (.s n.node_type) rfl
      (by simpa [FieldVal.truthy] using hty)]
  simp only [getFieldS_to_dict n "name" n.name rfl,
    getFieldQ_to_dict n "x" n.x rfl, getFieldQ_to_dict n "y" n.y rfl,
    getFieldQ_to_dict n "width" n.width rfl, getFieldQ_to_dict n "height" n.height rfl,
    getFieldS_to_dict n "text" n.text rfl, getFieldS_to_dict n "color" n.color rfl,
    getFieldS_to_dict n "author" n.author rfl,
    getFieldS_to_dict n "connector_start" n.connector_start rfl,
    getFieldS_to_dict n "connector_end" n.connector_end rfl,
    getFieldS_to_dict n "connector_start_cap" n.connector_start_cap rfl,
    getFieldS_to_dict n "connector_end_cap" n.connector_end_cap rfl,
    Option.some_bind]

/-- Round trip through the compact form for a whole node collection. -/
theorem nodes_round_trip (ns : List FigmaNode)
    (h : ∀ n ∈ ns, n.id ≠ "" ∧ n.node_type ≠ "") :
    (ns.map FigmaNode.to_dict).mapM FigmaNode.from_dict = some ns := by
  induction ns with
  | nil => rfl
  | cons a l ih =>
    rw [List.map_cons, List.mapM_cons,
      node_round_trip a (h a (List.mem_cons_self _ _)).1 (h a (List.mem_cons_self _ _)).2,
      ih fun n hn => h n (List.mem_cons_of_mem _ hn)]
    rfl

/-- C8 (confirmed): serialization omits exactly the fields holding their
default/empty value, and deserializing restores the original entity
(omitted fields reverting to their type defaults); a snapshot with its
entities' required fields populated round-trips through its serialized
record in all fields. -/
theorem c8_serialization_round_trip :
    (∀ (n : FigmaNode), ∀ p ∈ n.to_dict, p.2.truthy = true) ∧
    (∀ n : FigmaNode, n.id ≠ "" → n.node_type ≠ "" →
      FigmaNode.from_dict n.to_dict = some n) ∧
    (∀ s : FigmaSnapshot, (∀ n ∈ s.nodes, n.id ≠ "" ∧ n.node_type ≠ "") →
      FigmaSnapshot.from_dict s.to_dict = some s) := by
  refine ⟨fun n p hp => (List.mem_filter.1 hp).2,
    fun n hid hty => node_round_trip n hid hty, fun s h => ?_⟩
  rw [FigmaSnapshot.from_dict]
  simp only [FigmaSnapshot.to_dict]
  rw [nodes_round_trip s.nodes h]
  rfl

/-- Witness for C8 at a concrete entity and snapshot. -/
theorem c8_serialization_round_trip_witness :
    FigmaNode.from_dict (FigmaNode.to_dict
      { id := "n1", node_type := "sticky", text := "hello" }) =
      some { id := "n1", node_type := "sticky", text := "hello" } ∧
    FigmaSnapshot.from_dict (FigmaSnapshot.to_dict
      { board_name := "b", file_key := "k", node_id := "1:2",
        timestamp := "2025-01-31_120000",
        nodes := [{ id := "n1", node_type := "text", text := "Test" }] }) =
      some
        { board_name := "b", file_key := "k", node_id := "1:2",
          timestamp := "2025-01-31_120000",
          nodes := [{ id := "n1", node_type := "text", text := "Test" }] } :=
  ⟨c8_serialization_round_trip.2.1
      { id := "n1", node_type := "sticky", text := "hello" } (by decide) (by decide),
   c8_serialization_round_trip.2.2
      { board_name := "b", file_key := "k", node_id := "1:2",
        timestamp := "2025-01-31_120000",
        nodes := [{ id := "n1", node_type := "text", text := "Test" }] }
      (by intro n hn; rw [List.mem_singleton] at hn; subst hn; exact ⟨by decide, by decide⟩)⟩

/-- After an upsert the key is present. -/
theorem upsertFile_any (files : List (String × SnapDict)) (key : String) (c : SnapDict) :
    (upsertFile files key c).any (fun p => p.1 == key) = true := by
  rw [upsertFile]
  by_cases h : files.any (fun p => p.1 == key) = true
  · rw [if_pos h]
    obtain ⟨p, hp, hpk⟩ := List.any_eq_true.1 h
    exact List.any_eq_true.2 ⟨(key, c), List.mem_map.2 ⟨p, hp, by rw [if_pos hpk]⟩, by simp⟩
  · rw [if_neg h]
    exact List.any_eq_true.2
      ⟨(key, c), List.mem_append.2 (Or.inr (List.mem_singleton.2 rfl)), by simp⟩

/-- After an upsert every entry at the key holds the upserted content. -/
theorem upsertFile_key_entries (files : List (String × SnapDict)) (key : String)
    (c : SnapDict) :
    ∀ p ∈ upsertFile files key c, (p.1 == key) = true → p = (key, c) := by
  intro p hp hpk
  rw [upsertFile] at hp
  by_cases h : files.any (fun q => q.1 == key) = true
  · rw [if_pos h] at hp
    obtain ⟨q, hq, hqe⟩ := List.mem_map.1 hp
    by_cases hqk : (q.1 == key) = true
    · rw [if_pos hqk] at hqe
      exact hqe.symm
    · rw [if_neg hqk] at hqe
      subst hqe
      exact absurd hpk hqk
  · rw [if_neg h] at hp
    rcases List.mem_append.1 hp with hmem | hmem
    · exact absurd (List.any_eq_true.2 ⟨p, hmem, hpk⟩) h
    · exact List.mem_singleton.1 hmem

/-- Upserting into a list whose key entries already hold the content is
the identity. -/
theorem upsertFile_of_already (l : List (String × SnapDict)) (key : String) (c : SnapDict)
    (hany : l.any (fun p => p.1 == key) = true)
    (hall : ∀ p ∈ l, (p.1 == key) = true → p = (key, c)) :
    upsertFile l key c = l := by
  rw [upsertFile, if_pos hany]
  clear hany
  induction l with
  | nil => rfl
  | cons p l ih =>
    rw [List.map_cons]
    have hp : (if (p.1 == key) = true then (key, c) else p) = p := by
      by_cases hpk : (p.1 == key) = true
      · rw [if_pos hpk]
        exact (hall p (List.mem_cons_self _ _) hpk).symm
      · rw [if_neg hpk]
    rw [hp, ih fun q hq hqk => hall q (List.mem_cons_of_mem _ hq) hqk]

/-- Writing the same file twice is the same as writing it once. -/
theorem upsertFile_idem (files : List (String × SnapDict)) (key : String) (c : SnapDict) :
    upsertFile (upsertFile files key c) key c = upsertFile files key c :=
  upsertFile_of_already _ _ _ (upsertFile_any files key c)
    (upsertFile_key_entries files key c)

/-- C5 (amended): re-saving a snapshot with the same timestamp overwrites
the snapshot file, so the stored files are unchanged by the retry; but
the index update appends unconditionally, so the retry adds a second
index entry for the same timestamp and increments total_snapshots — save
is not idempotent on the index. -/
theorem c5_save_retry (cfg : TrackerCfg) (st : Store) (s : FigmaSnapshot)
    (now now2 : String) :
    (save_snapshot cfg (save_snapshot cfg st s now) s now2).files =
      (save_snapshot cfg st s now).files ∧
    (save_snapshot cfg (save_snapshot cfg st s now) s now2).index.map
        IndexData.snapshots =
      (save_snapshot cfg st s now).index.map (fun ix => ix.snapshots ++
        [{ timestamp := s.timestamp, filename := s.timestamp ++ ".json",
           node_count := s.nodes.length, section_name := s.section_name,
           created_at := now2 }]) ∧
    (save_snapshot cfg (save_snapshot cfg st s now) s now2).index.map
        IndexData.total_snapshots =
      (save_snapshot cfg st s now).index.map (fun ix => ix.total_snapshots + 1) := by
  refine ⟨?_, ?_, ?_⟩
  · simp only [save_snapshot, update_index, load_index]
    exact upsertFile_idem st.files s.timestamp s.to_dict
  · cases hst : st.index with
    | none => simp [save_snapshot, update_index, load_index, hst]
    | some idx => simp [save_snapshot, update_index, load_index, hst]
  · cases hst : st.index with
    | none => simp [save_snapshot, update_index, load_index, hst]
    | some idx => simp [save_snapshot, update_index, load_index, hst]

/-- C5 counterexample: on an empty store, saving one snapshot twice (same
timestamp, same clock reading) does not leave the store in the state one
save produces — the index has accumulated a duplicate entry. -/
theorem c5_save_retry_counterexample :
    save_snapshot { board_name := "b", file_key := "k", node_id := "1:2" }
        (save_snapshot { board_name := "b", file_key := "k", node_id := "1:2" }
          { files := [], index := none }
          { board_name := "b", file_key := "k", node_id := "1:2",
            timestamp := "2025-01-31_120000" } "T")
        { board_name := "b", file_key := "k", node_id := "1:2",
          timestamp := "2025-01-31_120000" } "T" ≠
      save_snapshot { board_name := "b", file_key := "k", node_id := "1:2" }
        { files := [], index := none }
        { board_name := "b", file_key := "k", node_id := "1:2",
          timestamp := "2025-01-31_120000" } "T" := by decide

/-- C4 (amended): when fewer than two snapshots are listed the engine
returns, not raises, the empty report with "(none)" placeholder
timestamps; when both timestamps resolve but either snapshot file fails
to load it returns the empty report carrying the resolved timestamps
(the placeholder only stands in for an absent or empty timestamp); in
both cases the three sequences are empty and has_changes is false. -/
theorem c4_no_common_ground (cfg : TrackerCfg) (st : Store)
    (from_ts to_ts : Option String) (ip : Bool) :
    ((list_snapshots cfg st).length < 2 →
      compare_snapshots cfg st from_ts to_ts ip =
        { board_name := cfg.board_name, from_snapshot := "(none)",
          to_snapshot := "(none)" } ∧
      (compare_snapshots cfg st from_ts to_ts ip).has_changes = false) ∧
    (∀ f t : String,
      resolve_comparison_timestamps cfg st from_ts to_ts = (some f, some t) →
      load_snapshot st f = none ∨ load_snapshot st t = none →
      compare_snapshots cfg st from_ts to_ts ip =
        { board_name := cfg.board_name, from_snapshot := pyOrStr (some f) "(none)",
          to_snapshot := pyOrStr (some t) "(none)" } ∧
      (compare_snapshots cfg st from_ts to_ts ip).has_changes = false) := by
  constructor
  · intro h
    have hres : resolve_comparison_timestamps cfg st from_ts to_ts = (none, none) := by
      rw [resolve_comparison_timestamps, if_pos h]
    rw [compare_snapshots, hres]
    exact ⟨rfl, rfl⟩
  · intro f t hres hload
    rw [compare_snapshots, hres]
    dsimp only
    rcases hload with hl | hl
    · rw [hl]
      cases hf : load_snapshot st t <;> exact ⟨rfl, rfl⟩
    · rw [hl]
      cases hf : load_snapshot st f <;> exact ⟨rfl, rfl⟩

/-- Witness for C4 at an empty store (no snapshots) and at a two-entry
index whose older file is missing. -/
theorem c4_no_common_ground_witness :
    compare_snapshots { board_name := "b", file_key := "k", node_id := "1:2" }
        { files := [], index := none } none none true =
      { board_name := "b", from_snapshot := "(none)", to_snapshot := "(none)" } ∧
    compare_snapshots { board_name := "b", file_key := "k", node_id := "1:2" }
        { files := [("2025-01-02_000000",
            FigmaSnapshot.to_dict
              { board_name := "b", file_key := "k", node_id := "1:2",
                timestamp := "2025-01-02_000000" })],
          index := some
            { board_name := "b", file_key := "k", node_id := "1:2",
              snapshots :=
                [{ timestamp := "2025-01-01_000000",
                   filename := "2025-01-01_000000.json", node_count := 0,
                   section_name := "", created_at := "T" },
                 { timestamp := "2025-01-02_000000",
                   filename := "2025-01-02_000000.json", node_count := 0,
                   section_name := "", created_at := "T" }],
              total_snapshots := 2, last_updated := some "T" } }
        none none true =
      { board_name := "b", from_snapshot := pyOrStr (some "2025-01-01_000000") "(none)",
        to_snapshot := pyOrStr (some "2025-01-02_000000") "(none)" } :=
  ⟨((c4_no_common_ground { board_name := "b", file_key := "k", node_id := "1:2" }
      { files := [], index := none } none none true).1 (by decide)).1,
   ((c4_no_common_ground { board_name := "b", file_key := "k", node_id := "1:2" }
      { files := [("2025-01-02_000000",
          FigmaSnapshot.to_dict
            { board_name := "b", file_key := "k", node_id := "1:2",
              timestamp := "2025-01-02_000000" })],
        index := some
          { board_name := "b", file_key := "k", node_id := "1:2",
            snapshots :=
              [{ timestamp := "2025-01-01_000000",
                 filename := "2025-01-01_000000.json", node_count := 0,
                 section_name := "", created_at := "T" },
               { timestamp := "2025-01-02_000000",
                 filename := "2025-01-02_000000.json", node_count := 0,
                 section_name := "", created_at := "T" }],
            total_snapshots := 2, last_updated := some "T" } }
      none none true).2 "2025-01-01_000000" "2025-01-02_000000"
      (by decide) (Or.inl (by decide))).1⟩

/-- C4 counterexample: with two listed snapshots whose older file is
missing, the returned report's from-timestamp is the resolved timestamp,
not the "(none)" placeholder the claim requires. -/
theorem c4_no_common_ground_counterexample :
    (compare_snapshots { board_name := "b", file_key := "k", node_id := "1:2" }
        { files := [("2025-01-02_000000",
            FigmaSnapshot.to_dict
              { board_name := "b", file_key := "k", node_id := "1:2",
                timestamp := "2025-01-02_000000" })],
          index := some
            { board_name := "b", file_key := "k", node_id := "1:2",
              snapshots :=
                [{ timestamp := "2025-01-01_000000",
                   filename := "2025-01-01_000000.json", node_count := 0,
                   section_name := "", created_at := "T" },
                 { timestamp := "2025-01-02_000000",
                   filename := "2025-01-02_000000.json", node_count := 0,
                   section_name := "", created_at := "T" }],
              total_snapshots := 2, last_updated := some "T" } }
        none none true).from_snapshot = "2025-01-01_000000" ∧
    (compare_snapshots { board_name := "b", file_key := "k", node_id := "1:2" }
        { files := [("2025-01-02_000000",
            FigmaSnapshot.to_dict
              { board_name := "b", file_key := "k", node_id := "1:2",
                timestamp := "2025-01-02_000000" })],
          index := some
            { board_name := "b", file_key := "k", node_id := "1:2",
              snapshots :=
                [{ timestamp := "2025-01-01_000000",
                   filename := "2025-01-01_000000.json", node_count := 0,
                   section_name := "", created_at := "T" },
                 { timestamp := "2025-01-02_000000",
                   filename := "2025-01-02_000000.json", node_count := 0,
                   section_name := "", created_at := "T" }],
              total_snapshots := 2, last_updated := some "T" } }
        none none true).from_snapshot ≠ "(none)" := by decide

/-- C1 (amended): extraction anchors on the opening tag name and the
mandatory id attribute and is tolerant of absent optional attributes, but
the optional attributes are tried one by one in the pattern's fixed
canonical order: an element whose optional attributes form a subsequence
of that order (any subset, each possibly absent) yields the entity
carrying each present attribute's value and the type default for each
absent one — for every supported element kind.  (Out-of-order attributes
are not captured; see the counterexample.) -/
theorem c1_attr_matching :
    (∀ (i inner : List Char) (vx vy vc va vw vh : Option (List Char)),
      i ≠ [] → noQuote i = true →
      noQuoteO vx = true → noQuoteO vy = true → noQuoteO vc = true →
      noQuoteO va = true → noQuoteO vw = true → noQuoteO vh = true →
      inner.all notLt = true →
      StickyParser.parse1 (renderElem "sticky".toList i
        [("x".toList, vx), ("y".toList, vy), ("color".toList, vc),
         ("author".toList, va), ("width".toList, vw), ("height".toList, vh)] inner) =
      some { id := String.mk i, node_type := "sticky",
             x := safe_float (vx.map String.mk),
             y := safe_float (vy.map String.mk),
             color := (vc.map String.mk).getD "",
             author := (va.map String.mk).getD "",
             width := safe_float (vw.map String.mk),
             height := safe_float (vh.map String.mk),
             text := String.mk (pyStrip inner) }) ∧
    (∀ (i inner : List Char) (vx vy vw vh vn : Option (List Char)),
      i ≠ [] → noQuote i = true →
      noQuoteO vx = true → noQuoteO vy = true → noQuoteO vw = true →
      noQuoteO vh = true → noQuoteO vn = true →
      inner.all notLt = true →
      ShapeWithTextParser.parse1 (renderElem "shape-with-text".toList i
        [("x".toList, vx), ("y".toList, vy), ("width".toList, vw),
         ("height".toList, vh), ("name".toList, vn)] inner) =
      some { id := String.mk i, node_type := "shape-with-text",
             x := safe_float (vx.map String.mk),
             y := safe_float (vy.map String.mk),
             width := safe_float (vw.map String.mk),
             height := safe_float (vh.map String.mk),
             name := (vn.map String.mk).getD "",
             text := String.mk (pyStrip inner) }) ∧
    (∀ (i inner : List Char) (vx vy vs vsc ve vec : Option (List Char)),
      i ≠ [] → noQuote i = true →
      noQuoteO vx = true → noQuoteO vy = true → noQuoteO vs = true →
      noQuoteO vsc = true → noQuoteO ve = true → noQuoteO vec = true →
      inner.all notLt = true →
      ConnectorParser.parse1 (renderElem "connector".toList i
        [("x".toList, vx), ("y".toList, vy), ("connectorStart".toList, vs),
         ("connectorStartCap".toList, vsc), ("connectorEnd".toList, ve),
         ("connectorEndCap".toList, vec)] inner) =
      some { id := String.mk i, node_type := "connector",
             x := safe_float (vx.map String.mk),
             y := safe_float (vy.map String.mk),
             connector_start := (vs.map String.mk).getD "",
             connector_start_cap := (vsc.map String.mk).getD "",
             connector_end := (ve.map String.mk).getD "",
             connector_end_cap := (vec.map String.mk).getD "",
             text := String.mk (pyStrip inner) }) ∧
    (∀ (i : List Char) (vn vx vy vw vh : Option (List Char)),
      i ≠ [] → noQuote i = true →
      noQuoteO vn = true → noQuoteO vx = true → noQuoteO vy = true →
      noQuoteO vw = true → noQuoteO vh = true →
      TextParser.parse1 (renderElemSC "text".toList i
        [("name".toList, vn), ("x".toList, vx), ("y".toList, vy),
         ("width".toList, vw), ("height".toList, vh)]) =
      some { id := String.mk i, node_type := "text",
             name := (vn.map String.mk).getD "",
             x := safe_float (vx.map String.mk),
             y := safe_float (vy.map String.mk),
             width := safe_float (vw.map String.mk),
             height := safe_float (vh.map String.mk),
             text := (vn.map String.mk).getD "" }) := by
  refine ⟨?_, ?_, ?_, ?_⟩
  · intro i inner vx vy vc va vw vh hi hiq h1 h2 h3 h4 h5 h6 hin
    have hg : ∀ p ∈ [("x".toList, vx), ("y".toList, vy), ("color".toList, vc),
        ("author".toList, va), ("width".toList, vw), ("height".toList, vh)],
        goodName p.1 = true := by
      intro p hp
      simp only [List.mem_cons, List.not_mem_nil, or_false] at hp
      rcases hp with rfl | rfl | rfl | rfl | rfl | rfl <;> rfl
    have hv : ∀ p ∈ [("x".toList, vx), ("y".toList, vy), ("color".toList, vc),
        ("author".toList, va), ("width".toList, vw), ("height".toList, vh)],
        noQuoteO p.2 = true := by
      intro p hp
      simp only [List.mem_cons, List.not_mem_nil, or_false] at hp
      rcases hp with rfl | rfl | rfl | rfl | rfl | rfl <;> assumption
    have hnames : List.Pairwise
        (fun a b => litClash (a ++ ['=', '"']) (b ++ ['=', '"']) = true)
        (List.map Prod.fst [("x".toList, vx), ("y".toList, vy), ("color".toList, vc),
          ("author".toList, va), ("width".toList, vw), ("height".toList, vh)]) := by
      rw [show List.map Prod.fst [("x".toList, vx), ("y".toList, vy), ("color".toList, vc),
          ("author".toList, va), ("width".toList, vw), ("height".toList, vh)] =
        ["x".toList, "y".toList, "color".toList, "author".toList, "width".toList,
         "height".toList] from rfl]
      decide
    have hpw := List.pairwise_map.1 hnames
    have hmain := matchElem_render "sticky".toList i inner
      [("x".toList, vx), ("y".toList, vy), ("color".toList, vc),
       ("author".toList, va), ("width".toList, vw), ("height".toList, vh)]
      hi hiq hg hv hpw hin
    rw [StickyParser.parse1,
      show stickyAttrNames = List.map Prod.fst [("x".toList, vx), ("y".toList, vy),
        ("color".toList, vc), ("author".toList, va), ("width".toList, vw),
        ("height".toList, vh)] from rfl, hmain]
    rfl
  · intro i inner vx vy vw vh vn hi hiq h1 h2 h3 h4 h5 hin
    have hg : ∀ p ∈ [("x".toList, vx), ("y".toList, vy), ("width".toList, vw),
        ("height".toList, vh), ("name".toList, vn)], goodName p.1 = true := by
      intro p hp
      simp only [List.mem_cons, List.not_mem_nil, or_false] at hp
      rcases hp with rfl | rfl | rfl | rfl | rfl <;> rfl
    have hv : ∀ p ∈ [("x".toList, vx), ("y".toList, vy), ("width".toList, vw),
        ("height".toList, vh), ("name".toList, vn)], noQuoteO p.2 = true := by
      intro p hp
      simp only [List.mem_cons, List.not_mem_nil, or_false] at hp
      rcases hp with rfl | rfl | rfl | rfl | rfl <;> assumption
    have hnames : List.Pairwise
        (fun a b => litClash (a ++ ['=', '"']) (b ++ ['=', '"']) = true)
        (List.map Prod.fst [("x".toList, vx), ("y".toList, vy), ("width".toList, vw),
          ("height".toList, vh), ("name".toList, vn)]) := by
      rw [show List.map Prod.fst [("x".toList, vx), ("y".toList, vy),
          ("width".toList, vw), ("height".toList, vh), ("name".toList, vn)] =
        ["x".toList, "y".toList, "width".toList, "height".toList, "name".toList]
        from rfl]
      decide
    have hpw := List.pairwise_map.1 hnames
    have hmain := matchElem_render "shape-with-text".toList i inner
      [("x".toList, vx), ("y".toList, vy), ("width".toList, vw),
       ("height".toList, vh), ("name".toList, vn)] hi hiq hg hv hpw hin
    rw [ShapeWithTextParser.parse1,
      show shapeAttrNames = List.map Prod.fst [("x".toList, vx), ("y".toList, vy),
        ("width".toList, vw), ("height".toList, vh), ("name".toList, vn)] from rfl,
      hmain]
    rfl
  · intro i inner vx vy vs vsc ve vec hi hiq h1 h2 h3 h4 h5 h6 hin
    have hg : ∀ p ∈ [("x".toList, vx), ("y".toList, vy), ("connectorStart".toList, vs),
        ("connectorStartCap".toList, vsc), ("connectorEnd".toList, ve),
        ("connectorEndCap".toList, vec)], goodName p.1 = true := by
      intro p hp
      simp only [List.mem_cons, List.not_mem_nil, or_false] at hp
      rcases hp with rfl | rfl | rfl | rfl | rfl | rfl <;> rfl
    have hv : ∀ p ∈ [("x".toList, vx), ("y".toList, vy), ("connectorStart".toList, vs),
        ("connectorStartCap".toList, vsc), ("connectorEnd".toList, ve),
        ("connectorEndCap".toList, vec)], noQuoteO p.2 = true := by
      intro p hp
      simp only [List.mem_cons, List.not_mem_nil, or_false] at hp
      rcases hp with rfl | rfl | rfl | rfl | rfl | rfl <;> assumption
    have hnames : List.Pairwise
        (fun a b => litClash (a ++ ['=', '"']) (b ++ ['=', '"']) = true)
        (List.map Prod.fst [("x".toList, vx), ("y".toList, vy),
          ("connectorStart".toList, vs), ("connectorStartCap".toList, vsc),
          ("connectorEnd".toList, ve), ("connectorEndCap".toList, vec)]) := by
      rw [show List.map Prod.fst [("x".toList, vx), ("y".toList, vy),
          ("connectorStart".toList, vs), ("connectorStartCap".toList, vsc),
          ("connectorEnd".toList, ve), ("connectorEndCap".toList, vec)] =
        ["x".toList, "y".toList, "connectorStart".toList, "connectorStartCap".toList,
         "connectorEnd".toList, "connectorEndCap".toList] from rfl]
      decide
    have hpw := List.pairwise_map.1 hnames
    have hmain := matchElem_render "connector".toList i inner
      [("x".toList, vx), ("y".toList, vy), ("connectorStart".toList, vs),
       ("connectorStartCap".toList, vsc), ("connectorEnd".toList, ve),
       ("connectorEndCap".toList, vec)] hi hiq hg hv hpw hin
    rw [ConnectorParser.parse1,
      show connectorAttrNames = List.map Prod.fst [("x".toList, vx), ("y".toList, vy),
        ("connectorStart".toList, vs), ("connectorStartCap".toList, vsc),
        ("connectorEnd".toList, ve), ("connectorEndCap".toList, vec)] from rfl,
      hmain]
    rfl
  · intro i vn vx vy vw vh hi hiq h1 h2 h3 h4 h5
    have hg : ∀ p ∈ [("name".toList, vn), ("x".toList, vx), ("y".toList, vy),
        ("width".toList, vw), ("height".toList, vh)], goodName p.1 = true := by
      intro p hp
      simp only [List.mem_cons, List.not_mem_nil, or_false] at hp
      rcases hp with rfl | rfl | rfl | rfl | rfl <;> rfl
    have hv : ∀ p ∈ [("name".toList, vn), ("x".toList, vx), ("y".toList, vy),
        ("width".toList, vw), ("height".toList, vh)], noQuoteO p.2 = true := by
      intro p hp
      simp only [List.mem_cons, List.not_mem_nil, or_false] at hp
      rcases hp with rfl | rfl | rfl | rfl | rfl <;> assumption
    have hnames : List.Pairwise
        (fun a b => litClash (a ++ ['=', '"']) (b ++ ['=', '"']) = true)
        (List.map Prod.fst [("name".toList, vn), ("x".toList, vx), ("y".toList, vy),
          ("width".toList, vw), ("height".toList, vh)]) := by
      rw [show List.map Prod.fst [("name".toList, vn), ("x".toList, vx),
          ("y".toList, vy), ("width".toList, vw), ("height".toList, vh)] =
        ["name".toList, "x".toList, "y".toList, "width".toList, "height".toList]
        from rfl]
      decide
    have hpw := List.pairwise_map.1 hnames
    have hmain := matchElemSC_render "text".toList i
      [("name".toList, vn), ("x".toList, vx), ("y".toList, vy),
       ("width".toList, vw), ("height".toList, vh)] hi hiq hg hv hpw
    rw [TextParser.parse1,
      show textAttrNames = List.map Prod.fst [("name".toList, vn), ("x".toList, vx),
        ("y".toList, vy), ("width".toList, vw), ("height".toList, vh)] from rfl,
      hmain]
    rfl

/-- Witness for C1: a sticky element with a subset of attributes in
canonical order, evaluated concretely. -/
theorem c1_attr_matching_witness :
    StickyParser.parse1 (renderElem "sticky".toList "s1".toList
      [("x".toList, some "5".toList), ("y".toList, none),
       ("color".toList, some "yellow".toList), ("author".toList, none),
       ("width".toList, none), ("height".toList, none)] "hi".toList) =
    some { id := String.mk "s1".toList, node_type := "sticky",
           x := safe_float ((some "5".toList).map String.mk),
           y := safe_float ((none : Option (List Char)).map String.mk),
           color := (((some "yellow".toList).map String.mk)).getD "",
           author := (((none : Option (List Char))).map String.mk).getD "",
           width := safe_float ((none : Option (List Char)).map String.mk),
           height := safe_float ((none : Option (List Char)).map String.mk),
           text := String.mk (pyStrip "hi".toList) } :=
  c1_attr_matching.1 "s1".toList "hi".toList (some "5".toList) none
    (some "yellow".toList) none none none (by decide) (by decide) (by decide)
    (by decide) (by decide) (by decide) (by decide) (by decide) (by decide)

/-- C1 counterexample: the same sticky element with its optional
attributes out of the pattern's canonical order (color before x) loses
the x attribute — the built entity differs from the canonical-order one,
so extraction is not attribute-order-tolerant. -/
theorem c1_attr_matching_counterexample :
    (StickyParser.parse1
        "<sticky id=\"s1\" color=\"yellow\" x=\"5\">hi</sticky>".toList).map
      FigmaNode.x = some 0 ∧
    (StickyParser.parse1
        "<sticky id=\"s1\" x=\"5\" color=\"yellow\">hi</sticky>".toList).map
      FigmaNode.x = some (mkRat 5 1) ∧
    (StickyParser.parse1
        "<sticky id=\"s1\" color=\"yellow\" x=\"5\">hi</sticky>".toList).map
      FigmaNode.color = some "yellow" := by
  refine ⟨by decide, by decide, by decide⟩

/-- Witness for C10 at a concrete pair differing only in color and width. -/
theorem c10_uncompared_fields_witness :
    detect_node_changes
      { id := "s1", node_type := "sticky", text := "note", color := "yellow", width := 10 }
      { id := "s1", node_type := "sticky", text := "note", color := "pink", width := 20 }
      false = [] :=
  (c10_uncompared_fields
    { id := "s1", node_type := "sticky", text := "note", color := "yellow", width := 10 }
    { id := "s1", node_type := "sticky", text := "note", color := "pink", width := 20 }
    false rfl rfl rfl rfl rfl rfl rfl rfl).1

end FigmaChanges
